import Mathlib

/-!
Verification of the framed file-transfer core of `sdl_utils` (`sdl_socket.py`).

Modelling conventions (shallow embedding):
* A byte is a `Nat` (the value of the octet); a byte string (`bytes`) is a
  `List Nat`.  Text fields travel on the wire as their UTF-8 byte sequences,
  so names and lines are modelled directly as byte lists.
* A socket's receive side is a `Sock`: the incoming byte stream `data`
  followed by end-of-stream (a `recv` on exhausted `data` returns the empty
  chunk, which is how a closed peer manifests in Python), plus an optional
  `sched` of per-call delivery caps that models short reads (a real `recv`
  may return fewer bytes than requested).  An empty `sched` means every
  `recv n` delivers `min n |data|` bytes.
* Fallible Python code (raised exceptions) is modelled with `Except Err`.
  The injected logger is a collaborator whose calls can themselves raise
  (`Logger.ok = false`); the code never guards its logger calls, so a logger
  failure propagates like any other exception.
* The body-receive loop additionally returns a trace: the value of
  `bytes_received` at every loop boundary together with the byte count
  requested from `recv` at that boundary (`none` for the final boundary
  where the loop exits successfully).  The trace is pure instrumentation;
  the second component of the result is exactly what the Python caller sees.
* The send helpers return the bytes written to the socket (`sendall` is
  modelled as appending to the wire) paired with the outcome of the
  subsequent logging call, which the code leaves unguarded.
-/

abbrev Bytes := List Nat

/-- Exceptions that the modelled code can raise. -/
inductive Err where
  | connectionError
  | valueError
  | loggerError
  | timeoutError
  deriving DecidableEq, Repr

/-- The injected logging collaborator: `ok = true` means its `.info` and
`.debug` calls succeed, `ok = false` means every call raises. -/
structure Logger where
  ok : Bool
  deriving DecidableEq, Repr

def Logger.info (l : Logger) : Except Err Unit :=
  if l.ok then Except.ok () else Except.error Err.loggerError

def Logger.debug (l : Logger) : Except Err Unit :=
  if l.ok then Except.ok () else Except.error Err.loggerError

def goodLogger : Logger := ⟨true⟩

def badLogger : Logger := ⟨false⟩

/-- Receive side of a connected stream socket.  `data` is what the peer has
sent (followed by closure); `sched` caps how many bytes successive `recv`
calls deliver, modelling short reads.  An empty `sched` means full delivery. -/
structure Sock where
  data : Bytes
  sched : List Nat
  deriving DecidableEq, Repr

/-- Model of `sock.recv(n)`: returns at most `n` bytes from the front of the
stream (fewer if the current schedule entry caps the read), and the socket
afterwards.  On an exhausted stream it returns the empty chunk, which is how
Python reports that the peer closed the connection. -/
def Sock.recv (s : Sock) (n : Nat) : Bytes × Sock :=
  match s.sched with
  | [] => (s.data.take n, ⟨s.data.drop n, []⟩)
  | cap :: rest => (s.data.take (min n cap), ⟨s.data.drop (min n cap), rest⟩)

theorem Sock.recv_fst_length_le (s : Sock) (n : Nat) : (s.recv n).1.length ≤ n := by
  obtain ⟨d, sch⟩ := s
  cases sch <;> simp [Sock.recv] <;> omega

theorem Sock.recv_data_lt (s : Sock) (n : Nat) (h : (s.recv n).1 ≠ []) :
    (s.recv n).2.data.length < s.data.length := by
  have hlen : 0 < (s.recv n).1.length := List.length_pos.mpr h
  obtain ⟨d, sch⟩ := s
  cases sch <;> simp [Sock.recv] at hlen ⊢ <;> omega

/-- Embedding of `_recv_until_newline`'s internal loop (`sdl_socket.py`
lines 42-51): read one byte at a time; an empty chunk (closed connection)
yields the empty string, discarding the bytes accumulated in `data_chunks`;
a newline byte 0x0A = 10 stops and the accumulated bytes are returned. -/
def recvLineAux (s : Sock) (data_chunks : Bytes) : Bytes × Sock :=
  match hc : (s.recv 1).1 with
  | [] => ([], (s.recv 1).2)
  | b :: _ =>
    if b = 10 then (data_chunks, (s.recv 1).2)
    else recvLineAux (s.recv 1).2 (data_chunks ++ [b])
termination_by s.data.length
decreasing_by
  exact Sock.recv_data_lt s 1 (by rw [hc]; simp)

/-- Embedding of `_recv_until_newline` (`sdl_socket.py` lines 37-51). -/
def _recv_until_newline (s : Sock) : Bytes × Sock :=
  recvLineAux s []

/-- On a fully-delivering stream holding a newline-free line followed by the
newline byte, the line loop returns exactly that line (appended to what was
already accumulated) and leaves the rest of the stream untouched. -/
theorem recvLine_spec (bs : Bytes) (h10 : (10 : Nat) ∉ bs) :
    ∀ (rest acc : Bytes), recvLineAux ⟨bs ++ 10 :: rest, []⟩ acc = (acc ++ bs, ⟨rest, []⟩) := by
  induction bs with
  | nil =>
    intro rest acc
    rw [recvLineAux]
    simp [Sock.recv]
  | cons b bt ih =>
    intro rest acc
    rw [recvLineAux]
    have hb : b ≠ 10 := by intro h; exact h10 (by simp [h])
    simp [Sock.recv, hb]
    rw [ih (by intro h; exact h10 (by simp [h])) rest (acc ++ [b])]
    simp

/-- If the stream closes before any newline byte arrives, the line loop
returns the empty string, discarding any bytes already accumulated. -/
theorem recvLine_closed (data : Bytes) (h10 : (10 : Nat) ∉ data) :
    ∀ acc : Bytes, recvLineAux ⟨data, []⟩ acc = ([], ⟨[], []⟩) := by
  induction data with
  | nil => intro acc; rw [recvLineAux]; rfl
  | cons b bt ih =>
    intro acc
    rw [recvLineAux]
    have hb : b ≠ 10 := by intro h; exact h10 (by simp [h])
    simp [Sock.recv, hb]
    exact ih (by intro h; exact h10 (by simp [h])) (acc ++ [b])

/-! Model of Python's built-in `int(str)` on the decoded line.  `int()`
accepts an optionally signed decimal numeral, with optional surrounding
whitespace and single underscores between digits; anything else raises
`ValueError`.  Bytes here are the UTF-8 code units of the line (the lines in
this protocol are ASCII). -/

def isDigit (b : Nat) : Bool := decide (48 ≤ b) && decide (b ≤ 57)

def isSpaceByte (b : Nat) : Bool :=
  b == 32 || b == 9 || b == 10 || b == 13 || b == 11 || b == 12

/-- Python `str.strip()` of whitespace as performed by `int()`. -/
def stripSpaces (bs : Bytes) : Bytes :=
  ((bs.dropWhile isSpaceByte).reverse.dropWhile isSpaceByte).reverse

/-- Digit tail of a Python integer numeral, allowing a single underscore
(byte 95) between two digits; `acc` is the value of the digits read so far. -/
def parseUDigits : Bytes → Nat → Option Nat
  | [], acc => some acc
  | b :: rest, acc =>
    if isDigit b then parseUDigits rest (acc * 10 + (b - 48))
    else if b = 95 then
      match rest with
      | [] => none
      | b2 :: rest2 =>
        if isDigit b2 then parseUDigits rest2 (acc * 10 + (b2 - 48)) else none
    else none

/-- Unsigned decimal numeral: a digit followed by `parseUDigits`. -/
def parseDigits (bs : Bytes) : Option Nat :=
  match bs with
  | [] => none
  | b :: rest => if isDigit b then parseUDigits rest (b - 48) else none

/-- Model of `int(line)`: strip whitespace, optional sign, decimal digits. -/
def pythonInt (bs : Bytes) : Option Int :=
  match stripSpaces bs with
  | [] => none
  | b :: rest =>
    if b = 43 then (parseDigits rest).map (fun n => (n : Int))
    else if b = 45 then (parseDigits rest).map (fun n => -(n : Int))
    else (parseDigits (b :: rest)).map (fun n => (n : Int))

/-- Decimal digits of `n`, most significant first, as ASCII bytes; the first
argument is structural fuel (any fuel at least `n` gives the numeral). -/
def natDecimalAux : Nat → Nat → Bytes
  | 0, _ => []
  | _ + 1, 0 => []
  | fuel + 1, n + 1 => natDecimalAux fuel ((n + 1) / 10) ++ [48 + (n + 1) % 10]

/-- ASCII decimal numeral of a natural number, as produced by Python's
string formatting of a non-negative `int`. -/
def natDecimal (n : Nat) : Bytes :=
  if n = 0 then [48] else natDecimalAux (n + 1) n

/-- ASCII decimal numeral of an `int`, as produced by Python's `f"{size}"`. -/
def intDecimal (n : Int) : Bytes :=
  if n < 0 then 45 :: natDecimal n.natAbs else natDecimal n.toNat

example : natDecimal 2056 = [50, 48, 53, 54] := by decide
example : pythonInt [50, 48, 53, 54] = some 2056 := by decide
example : pythonInt [32, 45, 53, 32] = some (-5) := by decide
example : pythonInt [49, 95, 48] = some 10 := by decide
example : pythonInt [97, 98, 99] = none := by decide
example : pythonInt [] = none := by decide
example : intDecimal (-31) = [45, 51, 49] := by decide

/-- Value of an ASCII digit string read left to right, Horner style, starting
from an already-accumulated value, exactly as the parser accumulates it. -/
def digitsVal (bs : Bytes) (acc : Nat) : Nat :=
  bs.foldl (fun a b => a * 10 + (b - 48)) acc

theorem digitsVal_append (xs ys : Bytes) (acc : Nat) :
    digitsVal (xs ++ ys) acc = digitsVal ys (digitsVal xs acc) := by
  simp [digitsVal, List.foldl_append]

theorem parseUDigits_all_digits (bs : Bytes) (hd : ∀ b ∈ bs, isDigit b = true) :
    ∀ acc, parseUDigits bs acc = some (digitsVal bs acc) := by
  induction bs with
  | nil => intro acc; simp [parseUDigits, digitsVal]
  | cons b bt ih =>
    intro acc
    have hb : isDigit b = true := hd b (by simp)
    rw [parseUDigits.eq_def]
    simp only [hb, if_true]
    rw [ih (fun x hx => hd x (by simp [hx])) (acc * 10 + (b - 48))]
    simp [digitsVal]

theorem natDecimalAux_val (n : Nat) :
    ∀ fuel, n ≤ fuel → digitsVal (natDecimalAux fuel n) 0 = n := by
  induction n using Nat.strong_induction_on with
  | _ n ih =>
    intro fuel hf
    match n, fuel with
    | 0, 0 => simp [natDecimalAux, digitsVal]
    | 0, f + 1 => simp [natDecimalAux, digitsVal]
    | m + 1, f + 1 =>
      rw [natDecimalAux, digitsVal_append]
      have hdiv : (m + 1) / 10 < m + 1 := Nat.div_lt_self (by omega) (by omega)
      have hfle : (m + 1) / 10 ≤ f := by omega
      rw [ih ((m + 1) / 10) hdiv f hfle]
      simp [digitsVal]
      omega

theorem natDecimalAux_digits (fuel : Nat) :
    ∀ n, ∀ b ∈ natDecimalAux fuel n, isDigit b = true := by
  induction fuel with
  | zero => intro n b hb; simp [natDecimalAux] at hb
  | succ f ih =>
    intro n b hb
    match n with
    | 0 => simp [natDecimalAux] at hb
    | m + 1 =>
      rw [natDecimalAux] at hb
      rcases List.mem_append.mp hb with h | h
      · exact ih ((m + 1) / 10) b h
      · have : b = 48 + (m + 1) % 10 := by simpa using h
        have hm : (m + 1) % 10 < 10 := Nat.mod_lt _ (by omega)
        simp [isDigit, this]
        omega

theorem natDecimal_digits (n : Nat) : ∀ b ∈ natDecimal n, isDigit b = true := by
  unfold natDecimal
  split
  · intro b hb; simp at hb; simp [isDigit, hb]
  · exact natDecimalAux_digits (n + 1) n

theorem natDecimal_ne_nil (n : Nat) : natDecimal n ≠ [] := by
  unfold natDecimal
  split
  · simp
  · match n, ‹¬n = 0› with
    | m + 1, _ => rw [natDecimalAux]; simp

theorem natDecimal_val (n : Nat) : digitsVal (natDecimal n) 0 = n := by
  unfold natDecimal
  split
  · simp_all [digitsVal]
  · exact natDecimalAux_val n (n + 1) (by omega)

theorem isDigit_not_space (b : Nat) (h : isDigit b = true) : isSpaceByte b = false := by
  simp [isDigit] at h
  simp [isSpaceByte]
  omega

theorem dropWhile_eq_self_of_none (p : Nat → Bool) (l : Bytes)
    (h : ∀ x ∈ l, p x = false) : l.dropWhile p = l := by
  cases l with
  | nil => simp
  | cons a t => simp [List.dropWhile_cons, h a (by simp)]

theorem stripSpaces_digits (bs : Bytes) (h : ∀ b ∈ bs, isDigit b = true) :
    stripSpaces bs = bs := by
  unfold stripSpaces
  rw [dropWhile_eq_self_of_none _ bs (fun x hx => isDigit_not_space x (h x hx))]
  rw [dropWhile_eq_self_of_none _ bs.reverse
        (fun x hx => isDigit_not_space x (h x (List.mem_reverse.mp hx)))]
  simp

/-- Python's `int()` inverts the decimal rendering of a natural number. -/
theorem pythonInt_natDecimal (n : Nat) : pythonInt (natDecimal n) = some (n : Int) := by
  have hdig := natDecimal_digits n
  have hne := natDecimal_ne_nil n
  unfold pythonInt
  rw [stripSpaces_digits _ hdig]
  match hnd : natDecimal n with
  | [] => exact absurd hnd hne
  | b :: rest =>
    have hb : isDigit b = true := by
      have := hdig b; rw [hnd] at this; exact this (by simp)
    have hb48 : 48 ≤ b ∧ b ≤ 57 := by simpa [isDigit] using hb
    have h43 : b ≠ 43 := by omega
    have h45 : b ≠ 45 := by omega
    simp only [h43, h45, if_false]
    rw [parseDigits]
    simp only [hb, if_true]
    rw [parseUDigits_all_digits rest
          (fun x hx => by
            have := hdig x; rw [hnd] at this; exact this (by simp [hx])) (b - 48)]
    have hv : digitsVal rest (b - 48) = n := by
      have := natDecimal_val n
      rw [hnd] at this
      simpa [digitsVal, List.foldl_cons] using this
    simp [hv]

/-! Embeddings of the protocol functions of `sdl_socket.py`.  Sending is
modelled as producing the bytes handed to `sock.sendall` (the wire
contribution); `sendall` itself always succeeds, and the unguarded
`logger.info` call that follows it is the only fallible step. -/

/-- Embedding of `send_file_name` (lines 54-64): writes `name + "\n"` as
UTF-8 bytes, then calls `logger.info`.  First component: bytes written to
the socket; second: the outcome of the call (the log call may raise). -/
def send_file_name (l : Logger) (name : Bytes) : Bytes × Except Err Unit :=
  (name ++ [10],
   match l.info with
   | Except.error e => Except.error e
   | Except.ok _ => Except.ok ())

/-- Embedding of `receive_file_name` (lines 67-71): just the line read.
The logger parameter is accepted and unused, as in the source. -/
def receive_file_name (_l : Logger) (s : Sock) : Bytes × Sock :=
  _recv_until_newline s

/-- Embedding of `send_file_size` (lines 74-84): writes `f"{size}\n"` as
ASCII bytes, then calls `logger.info`. -/
def send_file_size (l : Logger) (size : Int) : Bytes × Except Err Unit :=
  (intDecimal size ++ [10],
   match l.info with
   | Except.error e => Except.error e
   | Except.ok _ => Except.ok ())

/-- Embedding of `receive_file_size` (lines 87-102): read one line, parse it
with `int()`; on a parse failure call `logger.debug` (which may itself
raise) and then raise `ValueError`. -/
def receive_file_size (l : Logger) (s : Sock) : Except Err (Int × Sock) :=
  match _recv_until_newline s with
  | (num_in_str, s') =>
    match pythonInt num_in_str with
    | some file_size => Except.ok (file_size, s')
    | none =>
      match l.debug with
      | Except.error e => Except.error e
      | Except.ok _ => Except.error Err.valueError

/-- Embedding of the body-receive loop of `receive_file` (lines 119-125):
while `bytes_received < file_size`, request
`min(chunk_size, file_size - bytes_received)` bytes; an empty chunk means
the peer closed, so `logger.debug` is called and `ConnectionError` raised;
otherwise the chunk is appended and `bytes_received` advanced.  The first
component is the instrumentation trace: the value of `bytes_received` at
each loop boundary, with the byte count requested there (`none` on normal
exit, where no request is made). -/
def receiveLoop (l : Logger) (s : Sock) (chunk_size : Nat) (file_size : Int)
    (received_file : Bytes) (bytes_received : Nat) :
    List (Nat × Option Nat) × Except Err (Bytes × Sock) :=
  if h : (bytes_received : Int) < file_size then
    if hch : (s.recv (min chunk_size (file_size - (bytes_received : Int)).toNat)).1 = [] then
      ([(bytes_received, some (min chunk_size (file_size - (bytes_received : Int)).toNat))],
       match l.debug with
       | Except.error e => Except.error e
       | Except.ok _ => Except.error Err.connectionError)
    else
      let rest := receiveLoop l
        (s.recv (min chunk_size (file_size - (bytes_received : Int)).toNat)).2
        chunk_size file_size
        (received_file ++ (s.recv (min chunk_size (file_size - (bytes_received : Int)).toNat)).1)
        (bytes_received +
          (s.recv (min chunk_size (file_size - (bytes_received : Int)).toNat)).1.length)
      ((bytes_received,
        some (min chunk_size (file_size - (bytes_received : Int)).toNat)) :: rest.1, rest.2)
  else
    ([(bytes_received, none)], Except.ok (received_file, s))
termination_by (file_size - (bytes_received : Int)).toNat
decreasing_by
  have hpos : 0 < (s.recv (min chunk_size (file_size - (bytes_received : Int)).toNat)).1.length :=
    List.length_pos.mpr hch
  omega

/-- Embedding of `receive_file` (lines 105-128): `logger.info`, the chunk
loop starting from an empty buffer, then a final `logger.info` before
returning the accumulated bytes.  Every logger call is unguarded. -/
def receive_file (l : Logger) (s : Sock) (chunk_size : Nat) (file_size : Int) :
    List (Nat × Option Nat) × Except Err (Bytes × Sock) :=
  match l.info with
  | Except.error e => ([], Except.error e)
  | Except.ok _ =>
    match receiveLoop l s chunk_size file_size [] 0 with
    | (tr, Except.ok (body, s')) =>
      (tr,
       match l.info with
       | Except.error e => Except.error e
       | Except.ok _ => Except.ok (body, s'))
    | (tr, Except.error e) => (tr, Except.error e)

/-- Outcome of the underlying `sock.connect` call: it succeeds, raises one
of the `ConnectionError` subclasses (refused, reset, aborted), or times out.
In Python a connect timeout raises `socket.timeout` alias `TimeoutError`,
which is an `OSError` but NOT a subclass of `ConnectionError`. -/
inductive ConnectOutcome where
  | success
  | connectionRefused
  | timedOut
  deriving DecidableEq, Repr

/-- Embedding of `connect_socket` (lines 18-34): try to connect; on success
log and return `True`.  The `except ConnectionError` clause catches exactly
the `ConnectionError` subclasses, logs, and returns `False`; a timeout
(`socket.timeout` / `TimeoutError`) is not a `ConnectionError`, so it
escapes the handler and propagates to the caller.  There is no retry. -/
def connect_socket (l : Logger) (outcome : ConnectOutcome) : Except Err Bool :=
  match outcome with
  | ConnectOutcome.success =>
    match l.info with
    | Except.error e => Except.error e
    | Except.ok _ => Except.ok true
  | ConnectOutcome.connectionRefused =>
    match l.info with
    | Except.error e => Except.error e
    | Except.ok _ => Except.ok false
  | ConnectOutcome.timedOut => Except.error Err.timeoutError

theorem receiveLoop_trace_ne (l : Logger) (s : Sock) (c : Nat) (fs : Int)
    (acc : Bytes) (b : Nat) : (receiveLoop l s c fs acc b).1 ≠ [] := by
  rw [receiveLoop]
  split
  · split
    · simp
    · simp
  · simp

theorem receiveLoop_trace_head (l : Logger) (s : Sock) (c : Nat) (fs : Int)
    (acc : Bytes) (b : Nat) :
    ∃ o tl, (receiveLoop l s c fs acc b).1 = (b, o) :: tl := by
  rw [receiveLoop]
  split
  · split
    · exact ⟨_, _, rfl⟩
    · exact ⟨_, _, rfl⟩
  · exact ⟨_, _, rfl⟩

/-- On a fully-delivering stream holding at least the outstanding byte count,
the loop succeeds with exactly the outstanding prefix appended, for any
chunk size of at least one. -/
theorem receiveLoop_full (c : Nat) (hc : 1 ≤ c) (fs : Int) :
    ∀ (n : Nat) (data acc : Bytes) (b : Nat),
      (fs - (b : Int)).toNat = n → (fs - (b : Int)).toNat ≤ data.length →
      (receiveLoop goodLogger ⟨data, []⟩ c fs acc b).2 =
        Except.ok (acc ++ data.take (fs - (b : Int)).toNat,
                   ⟨data.drop (fs - (b : Int)).toNat, []⟩) := by
  intro n
  induction n using Nat.strong_induction_on with
  | _ n ih =>
    intro data acc b hn hle
    rw [receiveLoop]
    by_cases h : (b : Int) < fs
    · rw [dif_pos h]
      simp only [Sock.recv]
      have hdn : 1 ≤ (fs - (b : Int)).toNat := by omega
      have hreq1 : 1 ≤ min c (fs - (b : Int)).toNat := le_min hc hdn
      have hreqd : min c (fs - (b : Int)).toNat ≤ data.length := le_trans (min_le_right _ _) hle
      have htake : (data.take (min c (fs - (b : Int)).toNat)).length
          = min c (fs - (b : Int)).toNat := by
        rw [List.length_take]
        omega
      have hne : data.take (min c (fs - (b : Int)).toNat) ≠ [] := by
        intro hnil
        rw [hnil] at htake
        simp at htake
        omega
      rw [dif_neg hne]
      simp only [htake]
      set req := min c (fs - (b : Int)).toNat with hreqdef
      have hm : (fs - ((b + req : Nat) : Int)).toNat < n := by omega
      have hle2 : (fs - ((b + req : Nat) : Int)).toNat ≤ (data.drop req).length := by
        rw [List.length_drop]
        omega
      rw [ih _ hm (data.drop req) (acc ++ data.take req) (b + req) rfl hle2]
      have hsplit : (fs - (b : Int)).toNat = req + (fs - ((b + req : Nat) : Int)).toNat := by
        omega
      rw [hsplit, List.take_add, List.drop_drop]
      simp [List.append_assoc]
    · rw [dif_neg h]
      have h0 : (fs - (b : Int)).toNat = 0 := by omega
      simp [h0]

/-- If the peer closes the stream after delivering only `data`, fewer bytes
than outstanding, the loop raises `ConnectionError`; the final loop boundary
(the last trace entry) shows `bytes_received` equal to everything delivered. -/
theorem receiveLoop_premature (c : Nat) (hc : 1 ≤ c) (fs : Int) :
    ∀ (n : Nat) (data acc : Bytes) (b : Nat), data.length = n →
      ((b : Int) + data.length) < fs →
      (receiveLoop goodLogger ⟨data, []⟩ c fs acc b).2 = Except.error Err.connectionError ∧
      ((receiveLoop goodLogger ⟨data, []⟩ c fs acc b).1.getLast?).map Prod.fst =
        some (b + data.length) := by
  intro n
  induction n using Nat.strong_induction_on with
  | _ n ih =>
    intro data acc b hn hlt
    have hd0 : (0 : Int) ≤ (data.length : Int) := by positivity
    have h : (b : Int) < fs := by omega
    rw [receiveLoop, dif_pos h]
    simp only [Sock.recv]
    have hdn : 1 ≤ (fs - (b : Int)).toNat := by omega
    have hreq1 : 1 ≤ min c (fs - (b : Int)).toNat := le_min hc hdn
    cases data with
    | nil =>
      rw [dif_pos (by simp)]
      refine ⟨by simp [goodLogger, Logger.debug], ?_⟩
      simp
    | cons d dt =>
      have hne : (d :: dt).take (min c (fs - (b : Int)).toNat) ≠ [] := by
        intro hnil
        have := congrArg List.length hnil
        simp at this
        omega
      rw [dif_neg hne]
      have htl : ((d :: dt).take (min c (fs - (b : Int)).toNat)).length =
          min (min c (fs - (b : Int)).toNat) (d :: dt).length := List.length_take _ _
      have hdl : ((d :: dt).drop (min c (fs - (b : Int)).toNat)).length =
          (d :: dt).length - min c (fs - (b : Int)).toNat := List.length_drop _ _
      have hmeas : ((d :: dt).drop (min c (fs - (b : Int)).toNat)).length < n := by
        rw [hdl]; simp at hn ⊢; omega
      have hsum : ((b + ((d :: dt).take (min c (fs - (b : Int)).toNat)).length : Nat) : Int) +
          ((d :: dt).drop (min c (fs - (b : Int)).toNat)).length < fs := by
        rw [htl, hdl]
        push_cast
        simp at hlt ⊢
        omega
      obtain ⟨ih1, ih2⟩ := ih _ hmeas ((d :: dt).drop (min c (fs - (b : Int)).toNat))
        (acc ++ (d :: dt).take (min c (fs - (b : Int)).toNat))
        (b + ((d :: dt).take (min c (fs - (b : Int)).toNat)).length) rfl hsum
      refine ⟨by simpa using ih1, ?_⟩
      have hrne := receiveLoop_trace_ne goodLogger
        ⟨(d :: dt).drop (min c (fs - (b : Int)).toNat), []⟩ c fs
        (acc ++ (d :: dt).take (min c (fs - (b : Int)).toNat))
        (b + ((d :: dt).take (min c (fs - (b : Int)).toNat)).length)
      obtain ⟨x, xs, hxs⟩ := List.exists_cons_of_ne_nil hrne
      simp only [hxs] at ih2 ⊢
      rw [List.getLast?_cons_cons]
      rw [ih2]
      congr 1
      rw [htl, hdl]
      simp at hlt ⊢
      omega

/-- Loop invariants over an arbitrary stream and logger: trace boundaries are
monotone in `bytes_received`, never exceed the declared size, every request is
exactly `min(chunk_size, file_size - bytes_received)`, and a successful body
never exceeds the declared size. -/
theorem receiveLoop_inv (l : Logger) (c : Nat) (fs : Int) :
    ∀ (n : Nat) (s : Sock) (acc : Bytes) (b : Nat), (fs - (b : Int)).toNat = n →
      (b : Int) ≤ fs → acc.length = b →
      (∀ p ∈ (receiveLoop l s c fs acc b).1,
          b ≤ p.1 ∧ (p.1 : Int) ≤ fs ∧
          ∀ r, p.2 = some r → r = min c (fs - (p.1 : Int)).toNat) ∧
      List.Chain' (fun p q => p.1 ≤ q.1) (receiveLoop l s c fs acc b).1 ∧
      (∀ body s2, (receiveLoop l s c fs acc b).2 = Except.ok (body, s2) →
          (body.length : Int) ≤ fs) := by
  intro n
  induction n using Nat.strong_induction_on with
  | _ n ih =>
    intro s acc b hn hb hacc
    rw [receiveLoop]
    by_cases h : (b : Int) < fs
    · rw [dif_pos h]
      by_cases hch : (s.recv (min c (fs - (b : Int)).toNat)).1 = []
      · rw [dif_pos hch]
        refine ⟨?_, ?_, ?_⟩
        · intro p hp
          simp at hp
          subst hp
          exact ⟨le_refl b, hb, fun r hr => by simpa using hr.symm⟩
        · simp
        · intro body s2 hok
          cases hld : l.debug <;> simp [hld] at hok
      · rw [dif_neg hch]
        simp only []
        have hk1 : 1 ≤ (s.recv (min c (fs - (b : Int)).toNat)).1.length :=
          List.length_pos.mpr hch
        have hkreq : (s.recv (min c (fs - (b : Int)).toNat)).1.length ≤
            min c (fs - (b : Int)).toNat := Sock.recv_fst_length_le _ _
        have hb2 : ((b + (s.recv (min c (fs - (b : Int)).toNat)).1.length : Nat) : Int) ≤ fs := by
          push_cast
          omega
        have hmeas : (fs - ((b + (s.recv (min c (fs - (b : Int)).toNat)).1.length : Nat) : Int)).toNat
            < n := by
          push_cast
          omega
        have hacc2 : (acc ++ (s.recv (min c (fs - (b : Int)).toNat)).1).length =
            b + (s.recv (min c (fs - (b : Int)).toNat)).1.length := by
          simp [hacc]
        obtain ⟨ihmem, ihchain, ihok⟩ := ih _ hmeas
          (s.recv (min c (fs - (b : Int)).toNat)).2
          (acc ++ (s.recv (min c (fs - (b : Int)).toNat)).1)
          (b + (s.recv (min c (fs - (b : Int)).toNat)).1.length) rfl hb2 hacc2
        refine ⟨?_, ?_, ?_⟩
        · intro p hp
          simp only [List.mem_cons] at hp
          rcases hp with hp | hp
          · subst hp
            exact ⟨le_refl b, le_of_lt h, fun r hr => by simpa using hr.symm⟩
          · obtain ⟨h1, h2, h3⟩ := ihmem p hp
            exact ⟨by omega, h2, h3⟩
        · obtain ⟨o, tl, htl⟩ := receiveLoop_trace_head l
            (s.recv (min c (fs - (b : Int)).toNat)).2 c fs
            (acc ++ (s.recv (min c (fs - (b : Int)).toNat)).1)
            (b + (s.recv (min c (fs - (b : Int)).toNat)).1.length)
          rw [htl]
          rw [htl] at ihchain
          exact List.chain'_cons.mpr ⟨by simp, ihchain⟩
        · intro body s2 hok
          exact ihok body s2 hok
    · rw [dif_neg h]
      refine ⟨?_, ?_, ?_⟩
      · intro p hp
        simp at hp
        subst hp
        exact ⟨le_refl b, hb, fun r hr => by simp at hr⟩
      · simp
      · intro body s2 hok
        simp at hok
        rw [← hok.1, hacc]
        exact hb

/-- With a working logger, `receive_file` is the chunk loop started on an
empty buffer with `bytes_received = 0`, and the final log call is a no-op. -/
theorem receive_file_goodLogger (s : Sock) (c : Nat) (fs : Int) :
    receive_file goodLogger s c fs = receiveLoop goodLogger s c fs [] 0 := by
  rcases hr : receiveLoop goodLogger s c fs [] 0 with ⟨tr, r⟩
  unfold receive_file
  rw [hr]
  cases r with
  | ok v =>
    rcases v with ⟨body, s2⟩
    rfl
  | error e => rfl

theorem intDecimal_coe_nat (n : Nat) : intDecimal (n : Int) = natDecimal n := by
  unfold intDecimal
  rw [if_neg (by omega)]
  simp

theorem natDecimal_no_newline (n : Nat) : (10 : Nat) ∉ natDecimal n := by
  intro h
  have hd := natDecimal_digits n 10 h
  simp [isDigit] at hd

/-- C1: Round-trip of the full protocol: for every newline-free name `N` and
payload `P` of length `L`, the sender's wire bytes (name line, decimal size
line, body) decode through `receive_file_name`, `receive_file_size` and
`receive_file` (any chunk size at least 1) back to exactly `N`, `L`, `P`. -/
theorem C1_round_trip (N P : Bytes) (c : Nat) (hN : (10 : Nat) ∉ N) (hc : 1 ≤ c) :
    send_file_name goodLogger N = (N ++ [10], Except.ok ()) ∧
    send_file_size goodLogger (P.length : Int) = (natDecimal P.length ++ [10], Except.ok ()) ∧
    receive_file_name goodLogger ⟨(N ++ [10]) ++ ((natDecimal P.length ++ [10]) ++ P), []⟩ =
      (N, ⟨(natDecimal P.length ++ [10]) ++ P, []⟩) ∧
    receive_file_size goodLogger ⟨(natDecimal P.length ++ [10]) ++ P, []⟩ =
      Except.ok ((P.length : Int), ⟨P, []⟩) ∧
    (receive_file goodLogger ⟨P, []⟩ c (P.length : Int)).2 = Except.ok (P, ⟨[], []⟩) := by
  refine ⟨rfl, ?_, ?_, ?_, ?_⟩
  · unfold send_file_size
    rw [intDecimal_coe_nat]
    rfl
  · unfold receive_file_name _recv_until_newline
    have hassoc : (N ++ [10]) ++ ((natDecimal P.length ++ [10]) ++ P) =
        N ++ 10 :: ((natDecimal P.length ++ [10]) ++ P) := by simp
    rw [hassoc, recvLine_spec N hN _ []]
    simp
  · unfold receive_file_size _recv_until_newline
    have hassoc : (natDecimal P.length ++ [10]) ++ P = natDecimal P.length ++ 10 :: P := by
      simp
    rw [hassoc, recvLine_spec (natDecimal P.length) (natDecimal_no_newline P.length) P []]
    simp only [List.nil_append]
    rw [pythonInt_natDecimal]
  · rw [receive_file_goodLogger]
    rw [receiveLoop_full c hc (P.length : Int) _ P [] 0 rfl (by simp)]
    simp

theorem C1_round_trip_witness :
    ((10 : Nat) ∉ ([65] : Bytes)) ∧ (1 : Nat) ≤ 1 ∧
    (send_file_name goodLogger [65] = ([65, 10], Except.ok ()) ∧
     send_file_size goodLogger 2 = ([50, 10], Except.ok ()) ∧
     receive_file_name goodLogger ⟨[65, 10, 50, 10, 66, 67], []⟩ =
       ([65], ⟨[50, 10, 66, 67], []⟩) ∧
     receive_file_size goodLogger ⟨[50, 10, 66, 67], []⟩ = Except.ok (2, ⟨[66, 67], []⟩) ∧
     (receive_file goodLogger ⟨[66, 67], []⟩ 1 2).2 = Except.ok ([66, 67], ⟨[], []⟩)) :=
  ⟨by decide, by decide, C1_round_trip [65] [66, 67] 1 (by decide) (by decide)⟩

/-- C2 (amended): if the peer closes after only `k < declaredSize` body
bytes, `receive_file` raises `ConnectionError` instead of returning a
truncated body, and at the failing loop boundary the internal
`bytes_received` counter equals `k`.  (The raised exception itself carries
no byte count, so `k` is not recoverable from what the caller receives;
see the counterexample.) -/
theorem C2_premature_close (P : Bytes) (fs : Int) (c : Nat)
    (hc : 1 ≤ c) (hfs : 0 < fs) (hk : (P.length : Int) < fs) :
    (receive_file goodLogger ⟨P, []⟩ c fs).2 = Except.error Err.connectionError ∧
    ((receive_file goodLogger ⟨P, []⟩ c fs).1.getLast?).map Prod.fst = some P.length := by
  rw [receive_file_goodLogger]
  have h := receiveLoop_premature c hc fs P.length P [] 0 rfl (by push_cast; omega)
  simpa using h

theorem C2_premature_close_witness :
    (1 : Nat) ≤ 1 ∧ (0 : Int) < 3 ∧ ((([7] : Bytes).length : Int) < 3) ∧
    ((receive_file goodLogger ⟨[7], []⟩ 1 3).2 = Except.error Err.connectionError ∧
     ((receive_file goodLogger ⟨[7], []⟩ 1 3).1.getLast?).map Prod.fst =
       some ([7] : Bytes).length) :=
  ⟨by decide, by decide, by decide, C2_premature_close [7] 3 1 (by decide) (by decide) (by decide)⟩

/-- C2 counterexample to observability: two closures after different byte
counts (k = 1 vs k = 2 of a declared 3) yield the very same caller-visible
outcome, a bare `ConnectionError`; no function of the result can recover
`k`, so `bytes_received == k` is not observable to the caller. -/
theorem C2_counterexample :
    (receive_file goodLogger ⟨[7], []⟩ 1 3).2 = Except.error Err.connectionError ∧
    (receive_file goodLogger ⟨[7, 8], []⟩ 1 3).2 = Except.error Err.connectionError ∧
    (receive_file goodLogger ⟨[7], []⟩ 1 3).2 = (receive_file goodLogger ⟨[7, 8], []⟩ 1 3).2 := by
  have h1 := (receiveLoop_premature 1 (by decide) 3 1 [7] [] 0 rfl (by decide)).1
  have h2 := (receiveLoop_premature 1 (by decide) 3 2 [7, 8] [] 0 rfl (by decide)).1
  rw [receive_file_goodLogger, receive_file_goodLogger, h1, h2]
  exact ⟨rfl, rfl, rfl⟩

/-- Spec-side predicate, following the claim's words: a valid non-negative
integer line is a nonempty all-digit string. -/
def isNonNegIntegerLine (bs : Bytes) : Bool :=
  decide (bs ≠ []) && bs.all isDigit

/-- C3 (amended): over a stream carrying one newline-terminated line,
`receive_file_size` returns a size exactly when Python's `int()` accepts
the line (optionally signed decimal, with surrounding whitespace and digit
group underscores), in one pass with no internal retry, and raises
`ValueError` otherwise; in particular the line `abc` raises.  The claim's
original "valid non-negative integer" test is refuted by the
counterexample: a negative line such as `-5` is accepted. -/
theorem C3_size_line_parse (bs rest : Bytes) (h10 : (10 : Nat) ∉ bs) :
    receive_file_size goodLogger ⟨bs ++ 10 :: rest, []⟩ =
      match pythonInt bs with
      | some n => Except.ok (n, ⟨rest, []⟩)
      | none => Except.error Err.valueError := by
  unfold receive_file_size _recv_until_newline
  rw [recvLine_spec bs h10 rest []]
  simp only [List.nil_append]
  cases hp : pythonInt bs <;> simp [hp, goodLogger, Logger.debug]

theorem C3_size_line_parse_witness :
    ((10 : Nat) ∉ ([97, 98, 99] : Bytes)) ∧
    receive_file_size goodLogger ⟨[97, 98, 99, 10], []⟩ = Except.error Err.valueError :=
  ⟨by decide, C3_size_line_parse [97, 98, 99] [] (by decide)⟩

/-- C3 counterexample: the line `-5` is not a valid non-negative integer,
yet `receive_file_size` accepts it and returns `-5` instead of raising. -/
theorem C3_counterexample :
    isNonNegIntegerLine [45, 53] = false ∧
    receive_file_size goodLogger ⟨[45, 53, 10], []⟩ = Except.ok (-5, ⟨[], []⟩) := by
  constructor
  · decide
  · show receive_file_size goodLogger ⟨[45, 53] ++ 10 :: [], []⟩ = Except.ok (-5, ⟨[], []⟩)
    unfold receive_file_size _recv_until_newline
    rw [recvLine_spec [45, 53] (by decide) [] []]
    simp only [List.nil_append]
    rw [show pythonInt [45, 53] = some (-5) from by decide]

/-- C4: evaluation of `connect_socket` at the three connect outcomes.  A
connection error is caught and yields `False`; a connect timeout raises
`socket.timeout` (`TimeoutError`), which is not a `ConnectionError`
subclass, escapes the `except ConnectionError` handler, and propagates to
the caller instead of returning `False` — contradicting the function's own
docstring ("Return False when connection cannot be established") and the
log message of its handler. -/
theorem C4_connect_timeout_propagates :
    connect_socket goodLogger ConnectOutcome.timedOut = Except.error Err.timeoutError ∧
    connect_socket goodLogger ConnectOutcome.connectionRefused = Except.ok false ∧
    connect_socket goodLogger ConnectOutcome.success = Except.ok true := by
  exact ⟨rfl, rfl, rfl⟩

/-- C5: body-read invariant of `receive_file`, over any stream (short reads
included) and any logger: `bytes_received` is non-decreasing across loop
boundaries, never exceeds the declared size, every iteration requests
exactly `min(chunk_size, file_size - bytes_received)` bytes, and a
successfully returned body never exceeds the declared size. -/
theorem C5_body_read_invariant (l : Logger) (s : Sock) (c : Nat) (fs : Int)
    (hfs : 0 ≤ fs) (hc : 1 ≤ c) :
    List.Chain' (fun p q => p.1 ≤ q.1) (receive_file l s c fs).1 ∧
    (∀ p ∈ (receive_file l s c fs).1, (p.1 : Int) ≤ fs) ∧
    (∀ p ∈ (receive_file l s c fs).1,
        ∀ r, p.2 = some r → r = min c (fs - (p.1 : Int)).toNat) ∧
    (∀ body s2, (receive_file l s c fs).2 = Except.ok (body, s2) →
        (body.length : Int) ≤ fs) := by
  rcases l with ⟨lok⟩
  cases lok
  case false =>
    refine ⟨?_, ?_, ?_, ?_⟩ <;> simp [receive_file, Logger.info]
  case true =>
    rw [show Logger.mk true = goodLogger from rfl, receive_file_goodLogger]
    obtain ⟨hmem, hchain, hok⟩ :=
      receiveLoop_inv goodLogger c fs ((fs - ((0 : Nat) : Int)).toNat) s [] 0 rfl
        (by simpa using hfs) rfl
    exact ⟨hchain, fun p hp => (hmem p hp).2.1, fun p hp => (hmem p hp).2.2, hok⟩

theorem C5_body_read_invariant_witness :
    (0 : Int) ≤ 2 ∧ (1 : Nat) ≤ 1 ∧
    (List.Chain' (fun p q => p.1 ≤ q.1) (receive_file goodLogger ⟨[5, 6, 7], []⟩ 1 2).1 ∧
     (∀ p ∈ (receive_file goodLogger ⟨[5, 6, 7], []⟩ 1 2).1, (p.1 : Int) ≤ 2) ∧
     (∀ p ∈ (receive_file goodLogger ⟨[5, 6, 7], []⟩ 1 2).1,
         ∀ r, p.2 = some r → r = min 1 ((2 : Int) - (p.1 : Int)).toNat) ∧
     (∀ body s2, (receive_file goodLogger ⟨[5, 6, 7], []⟩ 1 2).2 = Except.ok (body, s2) →
         (body.length : Int) ≤ 2)) :=
  ⟨by decide, by decide,
   C5_body_read_invariant goodLogger ⟨[5, 6, 7], []⟩ 1 2 (by decide) (by decide)⟩

/-- C6: chunk-size invariance: on a fully-delivering stream holding at
least the declared byte count, the decoded body (and the whole
caller-visible outcome) is the same for every chunk size of at least 1. -/
theorem C6_chunk_size_invariance (data : Bytes) (fs : Int) (ca cb : Nat)
    (ha : 1 ≤ ca) (hb : 1 ≤ cb) (hd : fs.toNat ≤ data.length) :
    (receive_file goodLogger ⟨data, []⟩ ca fs).2 =
      (receive_file goodLogger ⟨data, []⟩ cb fs).2 := by
  rw [receive_file_goodLogger, receive_file_goodLogger]
  rw [receiveLoop_full ca ha fs _ data [] 0 rfl (by simpa using hd)]
  rw [receiveLoop_full cb hb fs _ data [] 0 rfl (by simpa using hd)]

theorem C6_chunk_size_invariance_witness :
    (1 : Nat) ≤ 1 ∧ (1 : Nat) ≤ 3 ∧ ((2 : Int).toNat ≤ ([1, 2, 3] : Bytes).length) ∧
    (receive_file goodLogger ⟨[1, 2, 3], []⟩ 1 2).2 =
      (receive_file goodLogger ⟨[1, 2, 3], []⟩ 3 2).2 :=
  ⟨by decide, by decide, by decide,
   C6_chunk_size_invariance [1, 2, 3] 2 1 3 (by decide) (by decide) (by decide)⟩

/-- C7: line-receive contract: `_recv_until_newline` (and with it
`receive_file_name`) reads byte by byte, stops at the first newline byte
and returns the bytes before it; if the stream closes before any newline
arrives it returns the empty string, even when non-newline bytes were
already received. -/
theorem C7_recv_line_contract (bs rest data : Bytes)
    (h10 : (10 : Nat) ∉ bs) (hd : (10 : Nat) ∉ data) :
    _recv_until_newline ⟨bs ++ 10 :: rest, []⟩ = (bs, ⟨rest, []⟩) ∧
    receive_file_name goodLogger ⟨bs ++ 10 :: rest, []⟩ = (bs, ⟨rest, []⟩) ∧
    _recv_until_newline ⟨data, []⟩ = ([], ⟨[], []⟩) ∧
    receive_file_name goodLogger ⟨data, []⟩ = ([], ⟨[], []⟩) := by
  have h1 : _recv_until_newline ⟨bs ++ 10 :: rest, []⟩ = (bs, ⟨rest, []⟩) := by
    unfold _recv_until_newline
    rw [recvLine_spec bs h10 rest []]
    simp
  have h2 : _recv_until_newline ⟨data, []⟩ = ([], ⟨[], []⟩) := by
    unfold _recv_until_newline
    exact recvLine_closed data hd []
  exact ⟨h1, h1, h2, h2⟩

theorem C7_recv_line_contract_witness :
    ((10 : Nat) ∉ ([97] : Bytes)) ∧ ((10 : Nat) ∉ ([99, 100] : Bytes)) ∧
    (_recv_until_newline ⟨[97, 10, 98], []⟩ = ([97], ⟨[98], []⟩) ∧
     receive_file_name goodLogger ⟨[97, 10, 98], []⟩ = ([97], ⟨[98], []⟩) ∧
     _recv_until_newline ⟨[99, 100], []⟩ = ([], ⟨[], []⟩) ∧
     receive_file_name goodLogger ⟨[99, 100], []⟩ = ([], ⟨[], []⟩)) :=
  ⟨by decide, by decide, C7_recv_line_contract [97] [98] [99, 100] (by decide) (by decide)⟩

/-- C8 (amended): the code never guards its logger calls, so a failing
(raising) logger aborts the operation: `send_file_name`, `send_file_size`
and `receive_file` all propagate the logger's exception instead of
completing with their normal result. -/
theorem C8_logger_failure_aborts (name : Bytes) (size : Int) (s : Sock) (c : Nat) (fs : Int) :
    (send_file_name badLogger name).2 = Except.error Err.loggerError ∧
    (send_file_size badLogger size).2 = Except.error Err.loggerError ∧
    receive_file badLogger s c fs = ([], Except.error Err.loggerError) := by
  exact ⟨rfl, rfl, rfl⟩

/-- C8 counterexample: with a raising logger the transfer aborts with the
logger's exception, while the same transfer with a working logger returns
the body normally — so a logging failure does abort a transfer. -/
theorem C8_counterexample :
    receive_file badLogger ⟨[104], []⟩ 1 1 = ([], Except.error Err.loggerError) ∧
    (receive_file goodLogger ⟨[104], []⟩ 1 1).2 = Except.ok ([104], ⟨[], []⟩) := by
  constructor
  · rfl
  · rw [receive_file_goodLogger]
    rw [receiveLoop_full 1 (by decide) 1 _ [104] [] 0 rfl (by decide)]
    simp

set_option maxRecDepth 2000 in
/-- C9: concrete scenario: name `report.txt`, size 5, body `hello`, chunk
size 2.  The receiver recovers name, size and body exactly, and the body
loop performs exactly three reads, requesting 2, 2 and 1 bytes (trace
boundaries 0, 2, 4, then 5 with no further request). -/
theorem C9_concrete_scenario :
    send_file_name goodLogger [114, 101, 112, 111, 114, 116, 46, 116, 120, 116] =
      ([114, 101, 112, 111, 114, 116, 46, 116, 120, 116, 10], Except.ok ()) ∧
    send_file_size goodLogger 5 = ([53, 10], Except.ok ()) ∧
    receive_file_name goodLogger
        ⟨[114, 101, 112, 111, 114, 116, 46, 116, 120, 116, 10,
          53, 10, 104, 101, 108, 108, 111], []⟩ =
      ([114, 101, 112, 111, 114, 116, 46, 116, 120, 116],
       ⟨[53, 10, 104, 101, 108, 108, 111], []⟩) ∧
    receive_file_size goodLogger ⟨[53, 10, 104, 101, 108, 108, 111], []⟩ =
      Except.ok (5, ⟨[104, 101, 108, 108, 111], []⟩) ∧
    receive_file goodLogger ⟨[104, 101, 108, 108, 111], []⟩ 2 5 =
      ([(0, some 2), (2, some 2), (4, some 1), (5, none)],
       Except.ok ([104, 101, 108, 108, 111], ⟨[], []⟩)) := by
  refine ⟨rfl, rfl, ?_, ?_, ?_⟩
  · show receive_file_name goodLogger
        ⟨[114, 101, 112, 111, 114, 116, 46, 116, 120, 116] ++ 10 ::
          [53, 10, 104, 101, 108, 108, 111], []⟩ = _
    unfold receive_file_name _recv_until_newline
    rw [recvLine_spec [114, 101, 112, 111, 114, 116, 46, 116, 120, 116] (by decide)
          [53, 10, 104, 101, 108, 108, 111] []]
    rfl
  · show receive_file_size goodLogger ⟨[53] ++ 10 :: [104, 101, 108, 108, 111], []⟩ = _
    unfold receive_file_size _recv_until_newline
    rw [recvLine_spec [53] (by decide) [104, 101, 108, 108, 111] []]
    simp only [List.nil_append]
    rw [show pythonInt [53] = some 5 from by decide]
  · rw [receive_file_goodLogger]
    simp [receiveLoop, Sock.recv]

/-- C10: for a zero or negative declared size the body loop's guard fails
at once: no `recv` is performed (the returned socket is untouched and the
trace holds a single boundary with no request) and the empty byte string is
returned without raising.  A negative declared size can really reach this
point, since `receive_file_size` parses any integer: the line `-3` yields
`-3` rather than an error. -/
theorem C10_nonpositive_size (s : Sock) (c : Nat) (fs : Int) (hfs : fs ≤ 0) :
    receive_file goodLogger s c fs = ([(0, none)], Except.ok ([], s)) ∧
    receive_file_size goodLogger ⟨[45, 51, 10], []⟩ = Except.ok (-3, ⟨[], []⟩) := by
  constructor
  · rw [receive_file_goodLogger]
    rw [receiveLoop]
    rw [dif_neg (show ¬(((0 : Nat) : Int) < fs) from by push_cast; omega)]
  · show receive_file_size goodLogger ⟨[45, 51] ++ 10 :: [], []⟩ = Except.ok (-3, ⟨[], []⟩)
    unfold receive_file_size _recv_until_newline
    rw [recvLine_spec [45, 51] (by decide) [] []]
    simp only [List.nil_append]
    rw [show pythonInt [45, 51] = some (-3) from by decide]

theorem C10_nonpositive_size_witness :
    (-2 : Int) ≤ 0 ∧
    (receive_file goodLogger ⟨[9], []⟩ 4 (-2) = ([(0, none)], Except.ok ([], ⟨[9], []⟩)) ∧
     receive_file_size goodLogger ⟨[45, 51, 10], []⟩ = Except.ok (-3, ⟨[], []⟩)) :=
  ⟨by decide, C10_nonpositive_size ⟨[9], []⟩ 4 (-2) (by decide)⟩
